import Mathlib

/-!
Verification of the query-orchestration core of the signoz query service
(package `querier/v2`): the cache-aware time-range reconciler
(`findMissingTimeRanges`), the series merger (`mergeSerieses`), the three
backend fan-out runners and the `QueryRange` orchestrator.

The Go code is embedded shallowly: machine `int64` millisecond timestamps
become `Int` (no arithmetic in the code can overflow for realistic clock
values, and no theorem here depends on wrap-around), Go slices become
lists, Go maps become association lists with Go's replace-on-assign
semantics, and fallible collaborator calls return `Except`/pairs with an
`Option` error exactly as the Go code threads `error` values.  External
collaborators (reader, cache, key generator, query builder) are fields of
`QuerierModel`, universally quantified in the theorems.
-/

namespace QuerierV2

/-- A single data point of a time series (`v3.Point`): millisecond timestamp
and a value.  The float64 value is only ever carried around by the code under
verification (never computed with), so it is modelled by an integer payload. -/
structure Point where
  timestamp : Int
  value : Int
deriving DecidableEq, Repr

/-- A time series (`v3.Series`): a label map (modelled as an association
list; Go map iteration order is abstracted by the list order) and points. -/
structure Series where
  labels : List (String × String)
  points : List Point
deriving DecidableEq, Repr

/-- `missInterval`: a sub-window `[start, end]` in milliseconds that is not
present in the cache. -/
structure MissInterval where
  start : Int
  endTs : Int
deriving DecidableEq, Repr

/-- The opening fold of `findMissingTimeRanges`: `cachedStart` and
`cachedEnd` both start at `0` and are updated across every point of every
cached series (`if cachedStart == 0 || ts < cachedStart`, and symmetrically
for the maximum). -/
def cachedBounds (seriesList : List Series) : Int × Int :=
  seriesList.foldl (fun acc series =>
    series.points.foldl (fun acc2 point =>
      (if acc2.1 = 0 ∨ point.timestamp < acc2.1 then point.timestamp else acc2.1,
       if acc2.2 = 0 ∨ point.timestamp > acc2.2 then point.timestamp else acc2.2)) acc)
    (0, 0)

/-- The flux-exclusion bound of `findMissingTimeRanges`:
`roundedMillis - fluxInterval` where
`roundedMillis = endMillis - endMillis % (min(step,60) * 1000)`.
Go reads `endMillis` from `time.Now().UnixMilli()`; the ambient clock is an
explicit `nowMs` argument here.  Go's `%` on `int64` truncates toward zero,
which is `Int.tmod`. -/
def fluxBound (step fluxIntervalMs nowMs : Int) : Int :=
  let adjustStep := min step 60
  let roundedMillis := nowMs - Int.tmod nowMs (adjustStep * 1000)
  roundedMillis - fluxIntervalMs

/-- The minimum point timestamp over the cached series (0 when no points). -/
def cachedStartOf (seriesList : List Series) : Int :=
  (cachedBounds seriesList).1

/-- The maximum point timestamp over the cached series, capped by the flux
bound: `cachedEnd = min(cachedEnd, roundedMillis - fluxInterval)`. -/
def cappedCachedEnd (seriesList : List Series) (step fluxIntervalMs nowMs : Int) : Int :=
  min (cachedBounds seriesList).2 (fluxBound step fluxIntervalMs nowMs)

/-- The five-way case split of `findMissingTimeRanges` on the relation
between the cached interval `[cs, ce]` and the requested `[start, end]`:
subset, superset, left overlap, right overlap, disjoint (in this priority
order), returning the raw miss candidates and the `replaceCacheData` flag. -/
def reconcileCases (start endTs cs ce : Int) : List MissInterval × Bool :=
  if cs ≥ start ∧ ce ≤ endTs then
    ([⟨start, cs - 1⟩, ⟨ce + 1, endTs⟩], false)
  else if cs ≤ start ∧ ce ≥ endTs then
    ([], false)
  else if cs ≤ start ∧ ce ≥ start then
    ([⟨ce + 1, endTs⟩], false)
  else if cs ≤ endTs ∧ ce ≥ endTs then
    ([⟨start, cs - 1⟩], false)
  else
    ([⟨start, endTs⟩], true)

/-- The tail of `findMissingTimeRanges`: keep only misses with
`miss.start < miss.end` (the `validMisses` loop). -/
def reconcileRanges (start endTs cs ce : Int) : List MissInterval × Bool :=
  ((reconcileCases start endTs cs ce).1.filter (fun m => decide (m.start < m.endTs)),
   (reconcileCases start endTs cs ce).2)

/-- `findMissingTimeRanges(start, end, step, seriesList, fluxInterval)`:
computes the cached bounds, caps the cached end at the flux bound, runs the
five-way case split and drops degenerate candidates. -/
def findMissingTimeRanges (start endTs step : Int) (seriesList : List Series)
    (fluxIntervalMs nowMs : Int) : List MissInterval × Bool :=
  reconcileRanges start endTs (cachedStartOf seriesList)
    (cappedCachedEnd seriesList step fluxIntervalMs nowMs)

/-- The raw cached payload handed to the querier method
`(*querier).findMissingTimeRanges`: a `[]byte` that is either the nil slice
(no cache hit), bytes that fail to `json.Unmarshal` into `[]*v3.Series`, or
bytes that decode to a series list. -/
inductive CachedData
  | noBytes
  | invalid
  | valid (seriesList : List Series)
deriving DecidableEq, Repr

/-- The result of `json.Unmarshal(cachedData, &cachedSeriesList)`: `none` on
a deserialization error (both for nil bytes and for corrupted bytes). -/
def unmarshalSeries : CachedData → Option (List Series)
  | .valid seriesList => some seriesList
  | _ => none

/-- An error value.  Go errors are opaque; the only inspection the code under
verification performs is `chErrors.IsResourceLimitError`, so the model carries
the message together with its resource-limit classification. -/
structure Err where
  msg : String
  resourceLimit : Bool
deriving DecidableEq, Repr

/-- `v3.QueryType`: Builder, PromQL, ClickHouseSQL, or anything else (the
`default` arm of the dispatch switch). -/
inductive QueryType
  | builder
  | promQL
  | clickHouseSQL
  | other
deriving DecidableEq, Repr

/-- `v3.PanelType`: the panel types the orchestrator branches on. -/
inductive PanelType
  | graph
  | value
  | list
  | trace
  | other
deriving DecidableEq, Repr

/-- `v3.ClickHouseQuery`: raw query text plus the `Disabled` flag. -/
structure ClickHouseQuery where
  query : String
  disabled : Bool
deriving DecidableEq, Repr

/-- `v3.PromQuery`: PromQL query text plus the `Disabled` flag. -/
structure PromQuery where
  query : String
  disabled : Bool
deriving DecidableEq, Repr

/-- `v3.BuilderQuery` (the fields the orchestrator reads): the `Expression`
(fan-out runs a query iff its name equals its expression) and `Disabled`. -/
structure BuilderQuery where
  expression : String
  disabled : Bool
deriving DecidableEq, Repr

/-- `v3.CompositeQuery`: the per-type sub-query maps (Go maps modelled as
association lists; Go guarantees distinct names, stated as `Nodup`
hypotheses where a theorem needs it), the query type and the panel type. -/
structure CompositeQuery where
  queryType : QueryType
  panelType : PanelType
  builderQueries : List (String × BuilderQuery)
  promQueries : List (String × PromQuery)
  clickHouseQueries : List (String × ClickHouseQuery)
deriving DecidableEq, Repr

/-- `v3.QueryRangeParamsV3`: window in milliseconds, step, the no-cache flag
and the (nilable) composite query. -/
structure Params where
  start : Int
  endTs : Int
  step : Int
  noCache : Bool
  compositeQuery : Option CompositeQuery
deriving DecidableEq, Repr

/-- `v3.Row`: an opaque row of the list/trace path (its contents are never
inspected by the code under verification). -/
structure Row where
  timestamp : Int
  payload : String
deriving DecidableEq, Repr

/-- `model.QueryRangeParams` as built by `metricsV4.BuildPromQuery`:
the prom query text restricted to a sub-window. -/
structure PromQueryParams where
  query : String
  start : Int
  endTs : Int
  step : Int
deriving DecidableEq, Repr

/-- One row of the matrix returned by the prom engine
(`promResult.Matrix()`): a metric label set and float samples. -/
structure PromSeriesRaw where
  metric : List (String × String)
  floats : List Point
deriving DecidableEq, Repr

/-- `v3.Result`: one named result, carrying series (series-oriented paths)
or rows (row-oriented path). -/
structure Result where
  queryName : String
  series : List Series := []
  list : List Row := []
deriving DecidableEq, Repr

/-- `channelResult`: the tagged value each fan-out goroutine writes to the
shared channel. -/
structure ChannelResult where
  series : List Series := []
  list : List Row := []
  err : Option Err := none
  name : String := ""
  query : String := ""
deriving DecidableEq, Repr

/-- A Go runtime panic.  Used to model the nil-pointer dereference that
`QueryRange` performs when `params.CompositeQuery` is nil. -/
inductive GoPanic
  | nilPointerDereference
deriving DecidableEq, Repr

/-- The `querier` struct together with its external collaborators (reader,
cache, key generator, query builder), which are opaque interfaces for the
code under verification and so are modelled as arbitrary functions. -/
structure QuerierModel where
  /-- `testingMode` flag of the struct. -/
  testingMode : Bool := false
  /-- Whether `q.reader` is nil (the testing-mode guard is
  `q.testingMode && q.reader == nil`). -/
  readerNil : Bool := false
  /-- `returnedSeries` used by the testing-mode branches. -/
  returnedSeries : List Series := []
  /-- `returnedErr` used by the testing-mode branches. -/
  returnedErr : Option Err := none
  /-- `q.fluxInterval` in milliseconds. -/
  fluxIntervalMs : Int := 0
  /-- The ambient clock `time.Now().UnixMilli()` read by
  `findMissingTimeRanges`. -/
  nowMs : Int := 0
  /-- Whether `q.cache` is nil. -/
  cacheNil : Bool := false
  /-- `q.keyGenerator.GenerateKeys(params)[queryName]`: `none` when the map
  has no key for the name. -/
  keyGen : Params → String → Option String := fun _ _ => none
  /-- `q.cache.Retrieve(key, true)`: the payload bytes and the error. -/
  cacheRetrieve : String → CachedData × Option Err := fun _ => (.noBytes, none)
  /-- `q.reader.GetTimeSeriesResultV3(ctx, query)`. -/
  chReader : String → List Series × Option Err := fun _ => ([], none)
  /-- `q.reader.GetQueryRangeResult` followed by `promResult.Matrix()`
  (either step may fail). -/
  promReader : PromQueryParams → Except Err (List PromSeriesRaw) := fun _ => .ok []
  /-- `q.reader.GetListResultV3(ctx, query)`. -/
  listReader : String → Except Err (List Row) := fun _ => .ok []
  /-- `q.builder.PrepareQueries(params, keys)`: sub-query name to query
  text (the `keys` argument is absorbed into the collaborator). -/
  prepareQueries : Params → Except Err (List (String × String)) := fun _ => .ok []
  /-- Modelled from the spec: `(*querier).runBuilderQuery` (referenced by the
  fan-out at `runBuilderQueries` but not part of the sources here).  Per the
  spec it is an independent unit of work producing a named series set, so it
  is an opaque collaborator function over which every theorem quantifies. -/
  builderWorker : Params → String → BuilderQuery → Except Err (List Series) :=
    fun _ _ _ => .ok []
  /-- `metricsV4.BuildPromQuery(promQuery, step, miss.start, miss.end)`
  (external query-translation collaborator). -/
  buildPromQuery : PromQuery → Int → Int → Int → PromQueryParams :=
    fun pq step s e => { query := pq.query, start := s, endTs := e, step := step }

/-- The querier method `(*querier).findMissingTimeRanges`: unmarshal the
cached payload; on a deserialization error return the whole window as a
single miss with `replaceCachedData = true`; otherwise delegate to the free
function.  Its Go signature has no error result: deserialization failure is
recovered locally and never surfaced. -/
def QuerierModel.findMissingTimeRanges (q : QuerierModel) (start endTs step : Int)
    (cachedData : CachedData) : List MissInterval × Bool :=
  match unmarshalSeries cachedData with
  | none => ([⟨start, endTs⟩], true)
  | some seriesList =>
      QuerierV2.findMissingTimeRanges start endTs step seriesList q.fluxIntervalMs q.nowMs

/-- Lexicographic comparison of character lists by code point (the string
ordering `sort.Slice` uses in `labelsToString`, written out so that it is
kernel-computable). -/
def charListLt : List Char → List Char → Bool
  | [], [] => false
  | [], _ :: _ => true
  | _ :: _, [] => false
  | c1 :: t1, c2 :: t2 =>
      if c1.toNat < c2.toNat then true
      else if c2.toNat < c1.toNat then false
      else charListLt t1 t2

/-- The strict string order used to sort label keys. -/
def strLt (a b : String) : Bool := charListLt a.data b.data

/-- Insertion step of the `sort.Slice` call in `labelsToString` (sorting the
label list by key ascending; label keys are distinct since they come from a
Go map, so stability is irrelevant). -/
def insertByKey (kv : String × String) : List (String × String) → List (String × String)
  | [] => [kv]
  | h :: t => if strLt kv.1 h.1 then kv :: h :: t else h :: insertByKey kv t

/-- The `sort.Slice(labelsList, Key < Key)` call of `labelsToString`. -/
def sortByKey : List (String × String) → List (String × String)
  | [] => []
  | h :: t => insertByKey h (sortByKey t)

/-- `labelsToString`: the canonical label signature
`\x7bk1=v1,k2=v2,...\x7d` with keys sorted ascending. -/
def labelsToString (labels : List (String × String)) : String :=
  let sorted := sortByKey labels
  let labelKVs := sorted.map (fun kv => kv.1 ++ "=" ++ kv.2)
  "\x7b" ++ String.intercalate "," labelKVs ++ "\x7d"

/-- Modelled from the spec: `v3.Series.SortPoints` (defined in the shared
model package, not among the sources here) sorts the points of a series by
timestamp ascending. -/
def insertPoint (p : Point) : List Point → List Point
  | [] => [p]
  | h :: t => if p.timestamp ≤ h.timestamp then p :: h :: t else h :: insertPoint p t

/-- Modelled from the spec: the sort-by-timestamp operation of
`v3.Series.SortPoints`. -/
def sortPoints : List Point → List Point
  | [] => []
  | h :: t => insertPoint h (sortPoints t)

/-- Helper of `removeDuplicatePoints`: drop every point whose timestamp
equals the timestamp of the last kept point. -/
def removeDupAux : Point → List Point → List Point
  | _, [] => []
  | prev, p :: ps =>
      if p.timestamp = prev.timestamp then removeDupAux prev ps
      else p :: removeDupAux p ps

/-- Modelled from the spec: `v3.Series.RemoveDuplicatePoints` (shared model
package, not among the sources here): adjacent points with equal timestamp
collapse to one, keeping the first. -/
def removeDuplicatePoints : List Point → List Point
  | [] => []
  | p :: ps => p :: removeDupAux p ps

/-- The normalization `mergeSerieses` applies to every merged series:
`series.SortPoints(); series.RemoveDuplicatePoints()`. -/
def normalizeSeries (s : Series) : Series :=
  { s with points := removeDuplicatePoints (sortPoints s.points) }

/-- Go map assignment `m[k] = v`: replace the binding if the key is present,
otherwise add it (position of fresh keys models iteration order, which Go
leaves unspecified). -/
def mapInsert : List (String × Series) → String → Series → List (String × Series)
  | [], k, v => [(k, v)]
  | (k1, v1) :: rest, k, v =>
      if k1 = k then (k, v) :: rest else (k1, v1) :: mapInsert rest k v

/-- Go map read `m[k]` with the `ok` idiom. -/
def mapLookup : List (String × Series) → String → Option Series
  | [], _ => none
  | (k1, v1) :: rest, k => if k1 = k then some v1 else mapLookup rest k

/-- One iteration of the `missedSeries` loop of `mergeSerieses`: a series
with a fresh signature is inserted as-is, otherwise its points are appended
to the existing series. -/
def mergeStep (m : List (String × Series)) (series : Series) : List (String × Series) :=
  match mapLookup m (labelsToString series.labels) with
  | none => mapInsert m (labelsToString series.labels) series
  | some existing =>
      mapInsert m (labelsToString series.labels)
        { existing with points := existing.points ++ series.points }

/-- `mergeSerieses(cachedSeries, missedSeries)`: seed a signature-keyed map
from the cached series, fold the missed series in (insert or append points),
then sort and de-duplicate the points of every series in the map. -/
def mergeSerieses (cachedSeries missedSeries : List Series) : List Series :=
  let m0 := cachedSeries.foldl
    (fun m series => mapInsert m (labelsToString series.labels) series) []
  let m1 := missedSeries.foldl mergeStep m0
  m1.map (fun kv => normalizeSeries kv.2)

/-- The Go-loop filter of `execClickHouseQuery`: rebuild the point slice
keeping the points with non-negative timestamp, in order (points with
negative timestamps are only counted and logged). -/
def keepNonNegative (points : List Point) : List Point :=
  points.foldl (fun acc p => if p.timestamp ≥ 0 then acc ++ [p] else acc) []

/-- `(*querier).execClickHouseQuery`: in testing mode with a nil reader the
mocked series and error are returned; otherwise the reader result has every
negative-timestamp point dropped from each series and the reader error is
passed through unchanged. -/
def execClickHouseQuery (q : QuerierModel) (query : String) : List Series × Option Err :=
  if q.testingMode && q.readerNil then
    (q.returnedSeries, q.returnedErr)
  else
    let r := q.chReader query
    (r.1.map (fun s => { s with points := keepNonNegative s.points }), r.2)

/-- `(*querier).execPromQuery`: testing mode returns the mocked data;
otherwise the prom matrix is converted to a series list
(labels from the metric, points from the float samples). -/
def execPromQuery (q : QuerierModel) (pp : PromQueryParams) : Except Err (List Series) :=
  if q.testingMode && q.readerNil then
    match q.returnedErr with
    | some e => .error e
    | none => .ok q.returnedSeries
  else
    match q.promReader pp with
    | .error e => .error e
    | .ok matrix =>
        .ok (matrix.map (fun raw => { labels := raw.metric, points := raw.floats }))

/-- Conversion of a successful channel result into a `v3.Result` on the
series-oriented paths. -/
def toSeriesResult (r : ChannelResult) : Result :=
  { queryName := r.name, series := r.series }

/-- The channel drain shared by the series-oriented runners: successes (in
completion order, modelled by list order) become results, failures are
collected into the name-keyed error map, and a non-nil overall error is
produced exactly when at least one unit failed. -/
def drainChannel (channelResults : List ChannelResult) (overallMsg : String) :
    Option (List Result) × Option (List (String × Err)) × Option Err :=
  let results := (channelResults.filter (fun r => r.err.isNone)).map toSeriesResult
  let errQueriesByName := channelResults.filterMap
    (fun r => r.err.map (fun e => (r.name, e)))
  let err := if errQueriesByName.isEmpty then none
             else some { msg := overallMsg, resourceLimit := false }
  (some results, some errQueriesByName, err)

/-- The per-query goroutine body of `runClickHouseQueries`. -/
def chUnit (q : QuerierModel) (nq : String × ClickHouseQuery) : ChannelResult :=
  let r := execClickHouseQuery q nq.2.query
  { series := r.1, err := r.2, name := nq.1, query := nq.2.query }

/-- `(*querier).runClickHouseQueries`: fan out one unit per enabled
(non-disabled) ClickHouse query, then drain the channel. -/
def runClickHouseQueries (q : QuerierModel)
    (chQueries : List (String × ClickHouseQuery)) :
    Option (List Result) × Option (List (String × Err)) × Option Err :=
  let enabled := chQueries.filter (fun nq => !nq.2.disabled)
  drainChannel (enabled.map (chUnit q)) "error in clickhouse queries"

/-- The per-query goroutine body of `runBuilderQueries`
(`q.runBuilderQuery`, modelled by the `builderWorker` collaborator). -/
def builderUnit (q : QuerierModel) (params : Params)
    (nq : String × BuilderQuery) : ChannelResult :=
  match q.builderWorker params nq.1 nq.2 with
  | .error e => { err := some e, name := nq.1 }
  | .ok series => { series := series, name := nq.1 }

/-- `(*querier).runBuilderQueries`: fan out one unit per sub-query whose
name equals its expression, then drain the channel. -/
def runBuilderQueries (q : QuerierModel) (params : Params)
    (builderQueries : List (String × BuilderQuery)) :
    Option (List Result) × Option (List (String × Err)) × Option Err :=
  let final := builderQueries.filter (fun nq => nq.1 == nq.2.expression)
  drainChannel (final.map (builderUnit q params)) "error in builder queries"

/-- The sequential fetch loop over the miss sub-windows of one prom
sub-query: each miss is translated by `BuildPromQuery` and executed; the
first failure aborts the whole sub-query, successes accumulate in order. -/
def promFetchMisses (q : QuerierModel) (pq : PromQuery) (step : Int) :
    List MissInterval → Except Err (List Series)
  | [] => .ok []
  | m :: ms =>
      match execPromQuery q (q.buildPromQuery pq step m.start m.endTs) with
      | .error e => .error e
      | .ok series =>
          match promFetchMisses q pq step ms with
          | .error e => .error e
          | .ok rest => .ok (series ++ rest)

/-- The per-query goroutine body of `runPromQueries`: retrieve the cached
payload (`NoCache`, nil cache, missing key or retrieve error all leave it
nil), reconcile the window, fetch the misses, then merge with the cached
series — or keep only the fresh data when `replaceCachedData` is set.  The
final `cache.Store` is an external effect with no influence on the returned
value and store errors are only logged, so it does not appear in the model. -/
def promUnit (q : QuerierModel) (params : Params) (nq : String × PromQuery) :
    ChannelResult :=
  let cachedData :=
    match q.keyGen params nq.1 with
    | some key =>
        if !params.noCache && !q.cacheNil then
          match q.cacheRetrieve key with
          | (data, none) => data
          | (_, some _) => CachedData.noBytes
        else CachedData.noBytes
    | none => CachedData.noBytes
  let mr := q.findMissingTimeRanges params.start params.endTs params.step cachedData
  match promFetchMisses q nq.2 params.step mr.1 with
  | .error e => { err := some e, name := nq.1, query := nq.2.query }
  | .ok missedSeries =>
      let cachedSeries := (unmarshalSeries cachedData).getD []
      let mergedSeries :=
        if mr.2 then missedSeries else mergeSerieses cachedSeries missedSeries
      { name := nq.1, query := nq.2.query, series := mergedSeries }

/-- `(*querier).runPromQueries`: fan out one unit per enabled prom query,
then drain the channel. -/
def runPromQueries (q : QuerierModel) (params : Params)
    (promQueries : List (String × PromQuery)) :
    Option (List Result) × Option (List (String × Err)) × Option Err :=
  let enabled := promQueries.filter (fun nq => !nq.2.disabled)
  drainChannel (enabled.map (promUnit q params)) "error in prom queries"

/-- The error wrapper of the list-path goroutine:
`fmt.Errorf("error in query-%s: %v", name, err)` (a fresh plain error, so
the resource-limit classification of the wrapped error is not preserved). -/
def wrapListErr (name : String) (e : Err) : Err :=
  { msg := "error in query-" ++ name ++ ": " ++ e.msg, resourceLimit := false }

/-- `fmt.Errorf("encountered multiple errors: %s", multierr.Combine(errs...))`. -/
def combineErrs (errs : List Err) : Err :=
  { msg := "encountered multiple errors: " ++ String.intercalate "; " (errs.map Err.msg),
    resourceLimit := false }

/-- The per-query goroutine body of `runBuilderListQueries`. -/
def listUnit (q : QuerierModel) (nq : String × String) : ChannelResult :=
  match q.listReader nq.2 with
  | .error e => { err := some (wrapListErr nq.1 e), name := nq.1, query := nq.2 }
  | .ok rowList => { list := rowList, name := nq.1, query := nq.2 }

/-- `(*querier).runBuilderListQueries` (the row-oriented List/Trace path):
translate all sub-queries first — a translation failure aborts the call with
`(nil, nil, err)` before any fan-out — then fan out one unit per named query;
if any unit failed, return `(nil, errQuriesByName, combined)` discarding all
row results, otherwise `(res, nil, nil)`. -/
def runBuilderListQueries (q : QuerierModel) (params : Params) :
    Option (List Result) × Option (List (String × Err)) × Option Err :=
  match q.prepareQueries params with
  | .error e => (none, none, some e)
  | .ok queries =>
      let channelResults := queries.map (listUnit q)
      let errs := channelResults.filterMap (fun r => r.err)
      let errQuriesByName := channelResults.filterMap
        (fun r => r.err.map (fun e => (r.name, e)))
      let res := (channelResults.filter (fun r => r.err.isNone)).map
        (fun r => { queryName := r.name, list := r.list : Result })
      if errs.isEmpty then (some res, none, none)
      else (none, some errQuriesByName, some (combineErrs errs))

/-- Modelled from the spec: `chErrors.IsResourceLimitError` (package
`query-service/errors`, not among the sources here) — whether an error is
classified "resource-limit exceeded" (spec error taxonomy); in the model the
classification is carried on the error value itself. -/
def isResourceLimitError (e : Err) : Bool := e.resourceLimit

/-- Modelled from the spec: `v3.CompositeQuery.EnabledQueries` (shared model
package, not among the sources here) — the number of enabled (non-disabled)
sub-queries of the composite query, for the query type in effect. -/
def enabledQueries (cq : CompositeQuery) : Nat :=
  match cq.queryType with
  | .builder => (cq.builderQueries.filter (fun nq => !nq.2.disabled)).length
  | .promQL => (cq.promQueries.filter (fun nq => !nq.2.disabled)).length
  | .clickHouseSQL => (cq.clickHouseQueries.filter (fun nq => !nq.2.disabled)).length
  | .other => 0

/-- The Value-panel validation error for more than one active query. -/
def valueQueryValidationErr : Err :=
  { msg := "there can be only one active query for value type panel",
    resourceLimit := false }

/-- The Value-panel validation error for more than one series in the single
result (`... but got %d`). -/
def valueSeriesValidationErr (n : Nat) : Err :=
  { msg := "there can be only one result series for value type panel but got "
      ++ toString n,
    resourceLimit := false }

/-- Character-list prefix test by code point (kernel-computable). -/
def charListPre : List Char → List Char → Bool
  | [], _ => true
  | _ :: _, [] => false
  | c1 :: t1, c2 :: t2 => (c1.toNat == c2.toNat) && charListPre t1 t2

/-- Whether an error is one of the two Value-panel validation errors
(the second one carries a series count, so it is recognized by its fixed
message head). -/
def isValueValidationError (e : Err) : Bool :=
  (e.msg == "there can be only one active query for value type panel")
  || charListPre
      "there can be only one result series for value type panel but got ".data
      e.msg.data

/-- The Value-panel post-validation of `QueryRange`: overwrite the overall
error when more than one result was returned while more than one query is
enabled, or when the single result holds more than one series. -/
def valueValidate (results : Option (List Result)) (cq : CompositeQuery)
    (err0 : Option Err) : Option Err :=
  if (results.getD []).length > 1 ∧ enabledQueries cq > 1 then
    some valueQueryValidationErr
  else
    match results.getD [] with
    | [r] => if r.series.length > 1 then some (valueSeriesValidationErr r.series.length)
             else err0
    | _ => err0

/-- The Builder arm of the dispatch switch: List/Trace panels take the
row-oriented path, every other panel type the series-oriented path. -/
def builderDispatch (q : QuerierModel) (params : Params) (cq : CompositeQuery) :
    Option (List Result) × Option (List (String × Err)) × Option Err :=
  if cq.panelType = PanelType.list ∨ cq.panelType = PanelType.trace then
    runBuilderListQueries q params
  else
    runBuilderQueries q params cq.builderQueries

/-- The dispatch switch of `QueryRange` on `CompositeQuery.QueryType`,
including the error-exposure filter the Builder arm applies to
`errQueriesByName` (only resource-limit errors are retained; the overall
error is untouched). -/
def dispatchStep (q : QuerierModel) (params : Params) (cq : CompositeQuery) :
    Option (List Result) × Option (List (String × Err)) × Option Err :=
  match cq.queryType with
  | .builder =>
      let t := builderDispatch q params cq
      (t.1, t.2.1.map (fun m => m.filter (fun ne => isResourceLimitError ne.2)), t.2.2)
  | .promQL => runPromQueries q params cq.promQueries
  | .clickHouseSQL => runClickHouseQueries q cq.clickHouseQueries
  | .other => (none, none, some { msg := "invalid query type", resourceLimit := false })

/-- `(*querier).QueryRange`: dispatch guarded by `params.CompositeQuery != nil`,
followed by the Value-panel validation — which reads
`params.CompositeQuery.PanelType` unconditionally, so a nil composite query
is a nil-pointer dereference (modelled as `Except.error`). -/
def QueryRange (q : QuerierModel) (params : Params) :
    Except GoPanic (Option (List Result) × Option (List (String × Err)) × Option Err) :=
  let t :=
    match params.compositeQuery with
    | some cq => dispatchStep q params cq
    | none => (none, none, none)
  match params.compositeQuery with
  | none => .error GoPanic.nilPointerDereference
  | some cq =>
      let err :=
        if cq.panelType = PanelType.value then valueValidate t.1 cq t.2.2
        else t.2.2
      .ok (t.1, t.2.1, err)

/-! ### Claim-support predicates and concrete instances -/

/-- Membership of a millisecond `x` in the union of a list of miss
intervals (each interval read as the inclusive range `[start, end]`). -/
def inMisses (x : Int) : List MissInterval → Prop
  | [] => False
  | m :: ms => (m.start ≤ x ∧ x ≤ m.endTs) ∨ inMisses x ms

/-- The interval `m` is disjoint from every interval in the list. -/
def disjointFromAll (m : MissInterval) : List MissInterval → Prop
  | [] => True
  | m2 :: ms => (m.endTs < m2.start ∨ m2.endTs < m.start) ∧ disjointFromAll m ms

/-- The intervals of the list are pairwise non-overlapping. -/
def missesPairwiseDisjoint : List MissInterval → Prop
  | [] => True
  | m :: ms => disjointFromAll m ms ∧ missesPairwiseDisjoint ms

/-- The miss intervals, together with the cached coverage `[cs, ce]`
(clipped to the requested window), exactly cover `[start, end]`:
every millisecond of the window lies in a miss or in the cached interval,
and conversely. -/
def exactCover (start endTs : Int) (misses : List MissInterval) (cs ce : Int) : Prop :=
  ∀ x : Int, (start ≤ x ∧ x ≤ endTs) ↔
    (inMisses x misses ∨ (cs ≤ x ∧ x ≤ ce ∧ start ≤ x ∧ x ≤ endTs))

/-- Whether an `Except` collaborator call succeeded. -/
def exceptOk : Except Err (List Row) → Bool
  | .ok _ => true
  | .error _ => false

/-- Cached series covering `[101, 180]`: its left edge is exactly one
millisecond after a request start of `100`. -/
def gapSeries : List Series := [⟨[("l", "1")], [⟨101, 0⟩, ⟨180, 0⟩]⟩]

/-- Cached series covering `[120, 180]` (the spec's subset-case literal). -/
def subsetSeries : List Series := [⟨[("l", "1")], [⟨120, 0⟩, ⟨180, 0⟩]⟩]

/-- Two distinct series carrying the same label set. -/
def dupLabelSeries : List Series :=
  [⟨[("a", "1")], [⟨1, 0⟩]⟩, ⟨[("a", "1")], [⟨2, 0⟩]⟩]

/-- Two series with distinct label signatures and unsorted, duplicated
timestamps. -/
def distinctLabelSeries : List Series :=
  [⟨[("a", "1"), ("b", "2")], [⟨2, 5⟩, ⟨1, 4⟩, ⟨1, 3⟩]⟩, ⟨[("c", "3")], []⟩]

/-- A querier whose reader returns one series holding a point at timestamp
`-5` and a point at timestamp `10`. -/
def negativePointModel : QuerierModel :=
  { chReader := fun _ => ([⟨[("l", "1")], [⟨-5, 1⟩, ⟨10, 2⟩]⟩], none) }

/-- A Builder/List composite query (row-oriented path). -/
def listCq : CompositeQuery :=
  { queryType := .builder, panelType := .list,
    builderQueries := [], promQueries := [], clickHouseQueries := [] }

/-- Params dispatching to the row-oriented Builder path. -/
def listFailParams : Params :=
  { start := 0, endTs := 0, step := 60, noCache := false, compositeQuery := some listCq }

/-- A querier whose query builder translates one sub-query `A` and whose
reader fails it with an internal (non-resource-limit) error. -/
def listFailModel : QuerierModel :=
  { prepareQueries := fun _ => .ok [("A", "sql")],
    listReader := fun _ => .error { msg := "internal failure", resourceLimit := false } }

/-- A ClickHouseSQL/Value composite query with two enabled sub-queries. -/
def valueCq : CompositeQuery :=
  { queryType := .clickHouseSQL, panelType := .value,
    builderQueries := [], promQueries := [],
    clickHouseQueries := [("A", ⟨"qa", false⟩), ("B", ⟨"qb", false⟩)] }

/-- Params for the two-sub-query Value-panel request. -/
def valueParams : Params :=
  { start := 0, endTs := 0, step := 60, noCache := false, compositeQuery := some valueCq }

/-- A querier whose reader succeeds on query text `qa` (one series, one
point) and fails on everything else. -/
def valueFailModel : QuerierModel :=
  { chReader := fun s =>
      if s = "qa" then ([⟨[("l", "1")], [⟨1, 1⟩]⟩], none)
      else ([], some { msg := "boom", resourceLimit := false }) }

/-- A querier whose reader succeeds on every ClickHouse query with one
single-point series. -/
def valueOkModel : QuerierModel :=
  { chReader := fun _ => ([⟨[("l", "1")], [⟨1, 1⟩]⟩], none) }

/-- A querier whose query builder fails translation outright. -/
def prepFailModel : QuerierModel :=
  { prepareQueries := fun _ => .error { msg := "translation failed", resourceLimit := false } }

/-- A querier whose query builder yields two sub-queries, of which `B`
fails row fetching. -/
def partialFailModel : QuerierModel :=
  { prepareQueries := fun _ => .ok [("A", "qa"), ("B", "qb")],
    listReader := fun s =>
      if s = "qb" then .error { msg := "row fetch failed", resourceLimit := false }
      else .ok [⟨1, "row"⟩] }

/-- Params with no composite query attached (nil `CompositeQuery`). -/
def plainParams : Params :=
  { start := 0, endTs := 0, step := 60, noCache := false, compositeQuery := none }

/-! ### Time-range reconciliation (claims C1, C2, C3) -/

theorem disjointFromAll_filter (m : MissInterval) (f : MissInterval → Bool) :
    ∀ ms : List MissInterval, disjointFromAll m ms → disjointFromAll m (ms.filter f)
  | [], h => h
  | m2 :: ms, h => by
    rcases h with ⟨hd, ht⟩
    cases hf : f m2
    · simp only [List.filter_cons, hf, if_false, Bool.false_eq_true]
      exact disjointFromAll_filter m f ms ht
    · simp only [List.filter_cons, hf, if_true]
      exact ⟨hd, disjointFromAll_filter m f ms ht⟩

theorem missesPairwiseDisjoint_filter (f : MissInterval → Bool) :
    ∀ ms : List MissInterval,
      missesPairwiseDisjoint ms → missesPairwiseDisjoint (ms.filter f)
  | [], h => h
  | m :: ms, h => by
    rcases h with ⟨hd, ht⟩
    cases hf : f m
    · simp only [List.filter_cons, hf, if_false, Bool.false_eq_true]
      exact missesPairwiseDisjoint_filter f ms ht
    · simp only [List.filter_cons, hf, if_true]
      exact ⟨disjointFromAll_filter m f ms hd, missesPairwiseDisjoint_filter f ms ht⟩

theorem inMisses_filter_cons (x : Int) (m : MissInterval) (ms : List MissInterval)
    (f : MissInterval → Bool) :
    inMisses x ((m :: ms).filter f) ↔
      ((f m = true ∧ m.start ≤ x ∧ x ≤ m.endTs) ∨ inMisses x (ms.filter f)) := by
  cases hf : f m
  · simp [List.filter_cons, hf]
  · simp [List.filter_cons, hf, inMisses]

/-- The core coverage lemma about the five-way case split: when the capped
cached interval is non-degenerate and does not sit exactly one millisecond
inside either edge of a non-degenerate request window, the kept misses are
pairwise disjoint and, together with the cached interval clipped to the
window, exactly cover the window. -/
theorem reconcileRanges_exact_cover (start endTs cs ce : Int)
    (h1 : start < endTs) (h2 : cs ≤ ce) (h3 : cs ≠ start + 1) (h4 : ce ≠ endTs - 1) :
    missesPairwiseDisjoint (reconcileRanges start endTs cs ce).1 ∧
    exactCover start endTs (reconcileRanges start endTs cs ce).1 cs ce := by
  unfold reconcileRanges reconcileCases
  split_ifs with c1 c2 c3 c4 <;>
    refine ⟨missesPairwiseDisjoint_filter _ _ ?_, fun x => ?_⟩ <;>
    simp only [missesPairwiseDisjoint, disjointFromAll, inMisses_filter_cons,
      List.filter_nil, inMisses, decide_eq_true_eq, and_true, true_and,
      or_false, false_or] <;>
    omega

/-- C1 (amended): for every requested window and cached series list, the
misses returned by `findMissingTimeRanges` are pairwise non-overlapping and
their union together with the clipped cached coverage exactly covers
`[start, end]` — provided the window is non-degenerate, the capped cached
interval is non-empty, and the cached interval does not sit exactly one
millisecond inside an edge of the window (in which case the reconciler
silently drops a single-millisecond miss and the cover has a hole). -/
theorem findMissingTimeRanges_exact_cover
    (start endTs step : Int) (seriesList : List Series) (fluxIntervalMs nowMs : Int)
    (h1 : start < endTs)
    (h2 : cachedStartOf seriesList ≤ cappedCachedEnd seriesList step fluxIntervalMs nowMs)
    (h3 : cachedStartOf seriesList ≠ start + 1)
    (h4 : cappedCachedEnd seriesList step fluxIntervalMs nowMs ≠ endTs - 1) :
    missesPairwiseDisjoint
      (findMissingTimeRanges start endTs step seriesList fluxIntervalMs nowMs).1 ∧
    exactCover start endTs
      (findMissingTimeRanges start endTs step seriesList fluxIntervalMs nowMs).1
      (cachedStartOf seriesList)
      (cappedCachedEnd seriesList step fluxIntervalMs nowMs) := by
  unfold findMissingTimeRanges
  exact reconcileRanges_exact_cover start endTs _ _ h1 h2 h3 h4

/-- C1 (counterexample): for the request `[100, 200]` with cached points at
timestamps 101 and 180 (fluxInterval 0, clock 960000, step 60), the miss
`[100, 100]` is dropped by the `start < end` filter, so millisecond 100 is
covered by neither the misses nor the cached coverage: the claimed exact
cover is false. -/
theorem findMissingTimeRanges_cover_counterexample :
    ¬ (missesPairwiseDisjoint (findMissingTimeRanges 100 200 60 gapSeries 0 960000).1 ∧
       exactCover 100 200 (findMissingTimeRanges 100 200 60 gapSeries 0 960000).1
         (cachedStartOf gapSeries) (cappedCachedEnd gapSeries 60 0 960000)) := by
  intro h
  have hm : (findMissingTimeRanges 100 200 60 gapSeries 0 960000).1
      = [⟨181, 200⟩] := by decide
  have hcs : cachedStartOf gapSeries = 101 := by decide
  have hce : cappedCachedEnd gapSeries 60 0 960000 = 180 := by decide
  have h2 := h.2
  rw [hm, hcs, hce] at h2
  have h100 := (h2 100).mp (by omega)
  simp only [inMisses, or_false, false_or] at h100
  omega

/-- C1 (witness): the amended exact-cover theorem applied to the request
`[100, 200]` with cached points at 120 and 180, fluxInterval 0, clock
960000 and step 60. -/
theorem findMissingTimeRanges_exact_cover_witness :
    ((100 : Int) < 200 ∧
     cachedStartOf subsetSeries ≤ cappedCachedEnd subsetSeries 60 0 960000 ∧
     cachedStartOf subsetSeries ≠ 100 + 1 ∧
     cappedCachedEnd subsetSeries 60 0 960000 ≠ 200 - 1) ∧
    (missesPairwiseDisjoint (findMissingTimeRanges 100 200 60 subsetSeries 0 960000).1 ∧
     exactCover 100 200 (findMissingTimeRanges 100 200 60 subsetSeries 0 960000).1
       (cachedStartOf subsetSeries) (cappedCachedEnd subsetSeries 60 0 960000)) :=
  ⟨⟨by decide, by decide, by decide, by decide⟩,
   findMissingTimeRanges_exact_cover 100 200 60 subsetSeries 0 960000
     (by decide) (by decide) (by decide) (by decide)⟩

/-- C2: when the capped cached coverage is a subset of the requested window
(`cachedStart ≥ start` and capped `cachedEnd ≤ end`), `findMissingTimeRanges`
returns exactly the two candidate misses `[start, cachedStart-1]` and
`[cachedEnd+1, end]`, each kept only if its start is strictly below its end,
with `replaceCacheData = false`. -/
theorem findMissingTimeRanges_subset_case
    (start endTs step : Int) (seriesList : List Series) (fluxIntervalMs nowMs : Int)
    (hcs : cachedStartOf seriesList ≥ start)
    (hce : cappedCachedEnd seriesList step fluxIntervalMs nowMs ≤ endTs) :
    findMissingTimeRanges start endTs step seriesList fluxIntervalMs nowMs =
      (([⟨start, cachedStartOf seriesList - 1⟩,
         ⟨cappedCachedEnd seriesList step fluxIntervalMs nowMs + 1, endTs⟩] :
          List MissInterval).filter (fun m => decide (m.start < m.endTs)),
       false) := by
  unfold findMissingTimeRanges reconcileRanges reconcileCases
  rw [if_pos ⟨hcs, hce⟩]

/-- C2 (witness): the subset-case theorem at the spec literal — request
`[100, 200]`, cached points covering `[120, 180]`, fluxInterval 0 — yields
misses `[100, 119]` and `[181, 200]` with `replace = false`. -/
theorem findMissingTimeRanges_subset_case_witness :
    (cachedStartOf subsetSeries ≥ 100 ∧
     cappedCachedEnd subsetSeries 60 0 960000 ≤ 200) ∧
    findMissingTimeRanges 100 200 60 subsetSeries 0 960000 =
      ([⟨100, 119⟩, ⟨181, 200⟩], false) := by
  refine ⟨⟨by decide, by decide⟩, ?_⟩
  rw [findMissingTimeRanges_subset_case 100 200 60 subsetSeries 0 960000
    (by decide) (by decide)]
  decide

/-- C3: when the cached payload cannot be deserialized, the querier method
`findMissingTimeRanges` returns the single miss `[start, end]` with
`replaceCachedData = true`; the method has no error result, so nothing is
surfaced to the caller. -/
theorem querier_findMissingTimeRanges_deserialization_failure
    (q : QuerierModel) (start endTs step : Int) (cachedData : CachedData)
    (_hwin : start < endTs) (hbad : unmarshalSeries cachedData = none) :
    q.findMissingTimeRanges start endTs step cachedData = ([⟨start, endTs⟩], true) := by
  unfold QuerierModel.findMissingTimeRanges
  rw [hbad]

/-- C3 (witness): the deserialization-failure theorem at a corrupted payload
for the window `[100, 200]`. -/
theorem querier_findMissingTimeRanges_deserialization_failure_witness :
    ((100 : Int) < 200 ∧ unmarshalSeries CachedData.invalid = none) ∧
    QuerierModel.findMissingTimeRanges {} 100 200 60 CachedData.invalid =
      ([⟨100, 200⟩], true) :=
  ⟨⟨by decide, rfl⟩,
   querier_findMissingTimeRanges_deserialization_failure {} 100 200 60
     CachedData.invalid (by decide) rfl⟩

/-! ### Series merging (claim C4) -/

theorem mapInsert_fresh : ∀ (m : List (String × Series)) (k : String) (v : Series),
    (∀ p ∈ m, p.1 ≠ k) → mapInsert m k v = m ++ [(k, v)]
  | [], _, _, _ => rfl
  | (k1, v1) :: rest, k, v, h => by
    unfold mapInsert
    rw [if_neg (h (k1, v1) (List.mem_cons_self _ _)),
      mapInsert_fresh rest k v (fun p hp => h p (List.mem_cons_of_mem _ hp))]
    rfl

theorem mapLookup_fresh : ∀ (m : List (String × Series)) (k : String),
    (∀ p ∈ m, p.1 ≠ k) → mapLookup m k = none
  | [], _, _ => rfl
  | (k1, v1) :: rest, k, h => by
    unfold mapLookup
    rw [if_neg (h (k1, v1) (List.mem_cons_self _ _))]
    exact mapLookup_fresh rest k (fun p hp => h p (List.mem_cons_of_mem _ hp))

theorem foldl_mapInsert_fresh :
    ∀ (X : List Series) (m : List (String × Series)),
      (X.map (fun s => labelsToString s.labels)).Nodup →
      (∀ s ∈ X, ∀ p ∈ m, p.1 ≠ labelsToString s.labels) →
      X.foldl (fun m series => mapInsert m (labelsToString series.labels) series) m =
        m ++ X.map (fun s => (labelsToString s.labels, s))
  | [], m, _, _ => by simp
  | s :: rest, m, hnd, hfresh => by
    rw [List.map_cons, List.nodup_cons] at hnd
    simp only [List.foldl_cons, List.map_cons]
    rw [mapInsert_fresh m _ s (hfresh s (List.mem_cons_self _ _))]
    rw [foldl_mapInsert_fresh rest (m ++ [(labelsToString s.labels, s)]) hnd.2 ?_]
    · simp
    · intro t ht p hp
      rcases List.mem_append.mp hp with hpm | hps
      · exact hfresh t (List.mem_cons_of_mem _ ht) p hpm
      · rcases List.mem_singleton.mp hps with rfl
        intro hcontra
        have hcontra2 : labelsToString s.labels = labelsToString t.labels := hcontra
        refine hnd.1 ?_
        rw [hcontra2]
        exact List.mem_map_of_mem (fun u => labelsToString u.labels) ht

theorem foldl_mergeStep_fresh :
    ∀ (X : List Series) (m : List (String × Series)),
      (X.map (fun s => labelsToString s.labels)).Nodup →
      (∀ s ∈ X, ∀ p ∈ m, p.1 ≠ labelsToString s.labels) →
      X.foldl mergeStep m = m ++ X.map (fun s => (labelsToString s.labels, s))
  | [], m, _, _ => by simp
  | s :: rest, m, hnd, hfresh => by
    rw [List.map_cons, List.nodup_cons] at hnd
    simp only [List.foldl_cons, List.map_cons]
    have hstep : mergeStep m s = m ++ [(labelsToString s.labels, s)] := by
      unfold mergeStep
      rw [mapLookup_fresh m _ (hfresh s (List.mem_cons_self _ _))]
      exact mapInsert_fresh m _ s (hfresh s (List.mem_cons_self _ _))
    rw [hstep]
    rw [foldl_mergeStep_fresh rest (m ++ [(labelsToString s.labels, s)]) hnd.2 ?_]
    · simp
    · intro t ht p hp
      rcases List.mem_append.mp hp with hpm | hps
      · exact hfresh t (List.mem_cons_of_mem _ ht) p hpm
      · rcases List.mem_singleton.mp hps with rfl
        intro hcontra
        have hcontra2 : labelsToString s.labels = labelsToString t.labels := hcontra
        refine hnd.1 ?_
        rw [hcontra2]
        exact List.mem_map_of_mem (fun u => labelsToString u.labels) ht

/-- C4 (amended): for every series list `X` whose label signatures are
pairwise distinct, `mergeSerieses X []` is, up to series order, `X` with
each series' points sorted by timestamp and de-duplicated, and
`mergeSerieses [] X` yields the same result.  (For lists with repeated
label signatures the map seeding overwrites earlier entries and the claim
fails, see the counterexample.) -/
theorem mergeSerieses_identity (X : List Series)
    (hnd : (X.map (fun s => labelsToString s.labels)).Nodup) :
    (mergeSerieses X []).Perm (X.map normalizeSeries) ∧
    (mergeSerieses [] X).Perm (X.map normalizeSeries) := by
  have hfresh : ∀ s ∈ X, ∀ p ∈ ([] : List (String × Series)),
      p.1 ≠ labelsToString s.labels := by intro s _ p hp; cases hp
  have e1 : mergeSerieses X [] = X.map normalizeSeries := by
    unfold mergeSerieses
    simp only [List.foldl_nil]
    rw [foldl_mapInsert_fresh X [] hnd hfresh]
    simp [List.map_map, Function.comp]
  have e2 : mergeSerieses [] X = X.map normalizeSeries := by
    unfold mergeSerieses
    simp only [List.foldl_nil]
    rw [foldl_mergeStep_fresh X [] hnd hfresh]
    simp [List.map_map, Function.comp]
  exact ⟨e1 ▸ List.Perm.refl _, e2 ▸ List.Perm.refl _⟩

/-- C4 (counterexample): for a list holding two series with the same label
set, seeding the signature-keyed map lets the second series overwrite the
first, so `mergeSerieses X []` loses a series (it is not a permutation of
the normalized `X`), and `mergeSerieses [] X` — which appends the points
instead — differs from `mergeSerieses X []`. -/
theorem mergeSerieses_identity_counterexample :
    ¬ ((mergeSerieses dupLabelSeries []).Perm (dupLabelSeries.map normalizeSeries)) ∧
    mergeSerieses [] dupLabelSeries ≠ mergeSerieses dupLabelSeries [] := by
  constructor
  · intro h
    have hlen := h.length_eq
    have h1 : (mergeSerieses dupLabelSeries []).length = 1 := by decide
    have h2 : (dupLabelSeries.map normalizeSeries).length = 2 := by decide
    omega
  · decide

/-- C4 (witness): the merge-identity theorem applied to two series with
distinct label signatures and unsorted, duplicated timestamps. -/
theorem mergeSerieses_identity_witness :
    (distinctLabelSeries.map (fun s => labelsToString s.labels)).Nodup ∧
    (mergeSerieses distinctLabelSeries []).Perm
      (distinctLabelSeries.map normalizeSeries) ∧
    (mergeSerieses [] distinctLabelSeries).Perm
      (distinctLabelSeries.map normalizeSeries) :=
  ⟨by decide,
   (mergeSerieses_identity distinctLabelSeries (by decide)).1,
   (mergeSerieses_identity distinctLabelSeries (by decide)).2⟩

/-! ### ClickHouse execution and the nil-composite dereference (claims C9, C10) -/

theorem keepNonNegative_foldl : ∀ (ps : List Point) (acc : List Point),
    ps.foldl (fun acc p => if p.timestamp ≥ 0 then acc ++ [p] else acc) acc =
      acc ++ ps.filter (fun p => decide (p.timestamp ≥ 0))
  | [], acc => by simp
  | p :: ps, acc => by
    simp only [List.foldl_cons, List.filter_cons]
    by_cases hp : p.timestamp ≥ 0
    · rw [if_pos hp, keepNonNegative_foldl ps (acc ++ [p])]
      simp [hp]
    · rw [if_neg hp, keepNonNegative_foldl ps acc]
      simp [hp]

/-- C9: outside the mocked testing mode, `execClickHouseQuery` returns the
reader series with exactly the negative-timestamp points removed — each
series keeps its points with timestamp ≥ 0 in their original order — and
the reader error is passed through unchanged (the filtering itself never
produces an error). -/
theorem execClickHouseQuery_filters_negative (q : QuerierModel) (query : String)
    (h : ¬ (q.testingMode = true ∧ q.readerNil = true)) :
    execClickHouseQuery q query =
      ((q.chReader query).1.map
        (fun s => { s with points := s.points.filter (fun p => decide (p.timestamp ≥ 0)) }),
       (q.chReader query).2) := by
  unfold execClickHouseQuery
  rw [if_neg (by rw [Bool.and_eq_true]; exact h)]
  simp only [keepNonNegative, keepNonNegative_foldl, List.nil_append]

/-- C9 (witness): a reader series with points at timestamps -5 and 10
yields a result series containing only the point at timestamp 10, with no
error. -/
theorem execClickHouseQuery_filters_negative_witness :
    (¬ (negativePointModel.testingMode = true ∧ negativePointModel.readerNil = true)) ∧
    execClickHouseQuery negativePointModel "sql" =
      ([⟨[("l", "1")], [⟨10, 2⟩]⟩], none) := by
  refine ⟨by decide, ?_⟩
  rw [execClickHouseQuery_filters_negative negativePointModel "sql" (by decide)]
  rfl

/-- C10: `QueryRange` on params whose composite query is nil does not
return `(nil, nil, nil)`: the Value-panel validation dereferences
`params.CompositeQuery.PanelType` outside the nil guard, which is a
nil-pointer dereference panic. -/
theorem queryRange_nil_composite_panics (q : QuerierModel)
    (start endTs step : Int) (noCache : Bool) :
    QueryRange q { start := start, endTs := endTs, step := step,
                   noCache := noCache, compositeQuery := none } =
      .error GoPanic.nilPointerDereference := rfl

/-! ### Orchestrator plumbing (claims C5, C6, C7) -/

theorem valueValidate_ne_none (results : Option (List Result)) (cq : CompositeQuery)
    (e0 : Err) : valueValidate results cq (some e0) ≠ none := by
  unfold valueValidate
  split_ifs
  · simp
  · cases hrs : results.getD [] with
    | nil => simp
    | cons r t =>
      cases t with
      | nil =>
        dsimp only
        split_ifs <;> simp
      | cons r2 t2 => simp

/-- For params carrying a composite query, `QueryRange` succeeds and returns
the dispatched results and error map unchanged; its overall error is the
dispatched one except for Value panels, where it can only be overwritten by
a validation error (never cleared). -/
theorem queryRange_ok_shape (q : QuerierModel) (params : Params) (cq : CompositeQuery)
    (hcq : params.compositeQuery = some cq) :
    ∃ e, QueryRange q params =
        .ok ((dispatchStep q params cq).1, (dispatchStep q params cq).2.1, e) ∧
      ((dispatchStep q params cq).2.2 ≠ none → e ≠ none) ∧
      (cq.panelType ≠ PanelType.value → e = (dispatchStep q params cq).2.2) := by
  unfold QueryRange
  simp only [hcq]
  by_cases hp : cq.panelType = PanelType.value
  · rw [if_pos hp]
    refine ⟨valueValidate (dispatchStep q params cq).1 cq (dispatchStep q params cq).2.2,
      rfl, ?_, fun hv => absurd hp hv⟩
    intro hne
    obtain ⟨e0, he0⟩ := Option.ne_none_iff_exists'.mp hne
    rw [he0]
    exact valueValidate_ne_none _ _ _
  · rw [if_neg hp]
    exact ⟨(dispatchStep q params cq).2.2, rfl, fun h => h, fun _ => rfl⟩

theorem chDrain_all_ok (q : QuerierModel) (K : String) :
    ∀ l : List (String × ClickHouseQuery),
      (∀ nq ∈ l, (execClickHouseQuery q nq.2.query).2 = none ∧ nq.1 ≠ K) →
      ((l.map (chUnit q)).filter (fun r => r.err.isNone) = l.map (chUnit q) ∧
       (l.map (chUnit q)).filterMap (fun r => r.err.map (fun e => (r.name, e))) = [] ∧
       (l.map (chUnit q)).map ChannelResult.name = l.map Prod.fst ∧
       (l.map Prod.fst).filter (fun n => decide (n ≠ K)) = l.map Prod.fst)
  | [], _ => ⟨rfl, rfl, rfl, rfl⟩
  | nq :: t, h => by
    obtain ⟨hn, hk⟩ := h nq (List.mem_cons_self _ _)
    have ih := chDrain_all_ok q K t (fun x hx => h x (List.mem_cons_of_mem _ hx))
    have herr : (chUnit q nq).err = none := hn
    have hname : (chUnit q nq).name = nq.1 := rfl
    refine ⟨?_, ?_, ?_, ?_⟩
    · simp only [List.map_cons, List.filter_cons, herr, Option.isNone_none, if_true]
      rw [ih.1]
    · simp only [List.map_cons, List.filterMap_cons, herr, Option.map_none']
      exact ih.2.1
    · simp only [List.map_cons, hname, ih.2.2.1]
    · simp only [List.map_cons, List.filter_cons]
      rw [if_pos (by simp [hk]), ih.2.2.2]

theorem chDrain_one_fail (q : QuerierModel) (K : String) :
    ∀ l : List (String × ClickHouseQuery),
      (l.map Prod.fst).Nodup →
      K ∈ l.map Prod.fst →
      (∀ nq ∈ l, ((execClickHouseQuery q nq.2.query).2 = none ↔ nq.1 ≠ K)) →
      (((l.map (chUnit q)).filter (fun r => r.err.isNone)).length + 1 = l.length ∧
       ((l.map (chUnit q)).filterMap
           (fun r => r.err.map (fun e => (r.name, e)))).map Prod.fst = [K] ∧
       ((l.map (chUnit q)).filter (fun r => r.err.isNone)).map ChannelResult.name
         = (l.map Prod.fst).filter (fun n => decide (n ≠ K)))
  | [], _, hK, _ => absurd hK (List.not_mem_nil K)
  | nq :: t, hnd0, hK, hiff => by
    have hnd : nq.1 ∉ t.map Prod.fst ∧ (t.map Prod.fst).Nodup := by
      rw [List.map_cons, List.nodup_cons] at hnd0
      exact hnd0
    by_cases hkK : nq.1 = K
    · have hne : (execClickHouseQuery q nq.2.query).2 ≠ none := by
        intro hnone
        exact ((hiff nq (List.mem_cons_self _ _)).mp hnone) hkK
      obtain ⟨e0, he0⟩ := Option.ne_none_iff_exists'.mp hne
      have hxne : ∀ x ∈ t, x.1 ≠ K := by
        intro x hx hxK
        apply hnd.1
        rw [hkK, ← hxK]
        exact List.mem_map_of_mem Prod.fst hx
      have hall := chDrain_all_ok q K t (fun x hx =>
        ⟨(hiff x (List.mem_cons_of_mem _ hx)).mpr (hxne x hx), hxne x hx⟩)
      have herr : (chUnit q nq).err = some e0 := he0
      have hname : (chUnit q nq).name = nq.1 := rfl
      refine ⟨?_, ?_, ?_⟩
      · simp only [List.map_cons, List.filter_cons, herr, Option.isNone_some,
          Bool.false_eq_true, if_false, List.length_cons]
        rw [hall.1]
        simp
      · simp only [List.map_cons, List.filterMap_cons, herr, Option.map_some']
        rw [hall.2.1, hname]
        simp [hkK]
      · simp only [List.map_cons, List.filter_cons, herr, Option.isNone_some,
          Bool.false_eq_true, if_false]
        rw [hall.1, hall.2.2.1]
        rw [if_neg (by simp [hkK]), hall.2.2.2]
    · have hnone : (execClickHouseQuery q nq.2.query).2 = none :=
        (hiff nq (List.mem_cons_self _ _)).mpr hkK
      have hKt : K ∈ t.map Prod.fst := by
        rcases List.mem_cons.mp hK with h1 | h2
        · exact absurd h1.symm hkK
        · exact h2
      have ih := chDrain_one_fail q K t hnd.2 hKt
        (fun x hx => hiff x (List.mem_cons_of_mem _ hx))
      have herr : (chUnit q nq).err = none := hnone
      have hname : (chUnit q nq).name = nq.1 := rfl
      refine ⟨?_, ?_, ?_⟩
      · simp only [List.map_cons, List.filter_cons, herr, Option.isNone_none, if_true,
          List.length_cons]
        have h1 := ih.1
        omega
      · simp only [List.map_cons, List.filterMap_cons, herr, Option.map_none']
        exact ih.2.1
      · simp only [List.map_cons, List.filter_cons, herr, Option.isNone_none, if_true,
          hname]
        rw [if_pos (by simp [hkK]), ih.2.2]

/-- C5: for a ClickHouseSQL request in which exactly one enabled sub-query
`K` fails and all other enabled sub-queries succeed, `QueryRange` returns
one result per succeeding sub-query (so one fewer than the number of
enabled sub-queries), a per-name error map whose only key is `K`, and a
non-nil overall error. -/
theorem queryRange_clickhouse_fanout_isolation
    (q : QuerierModel) (params : Params) (cq : CompositeQuery) (K : String)
    (hcq : params.compositeQuery = some cq)
    (hqt : cq.queryType = QueryType.clickHouseSQL)
    (hnd : (cq.clickHouseQueries.map Prod.fst).Nodup)
    (hK : K ∈ (cq.clickHouseQueries.filter (fun nq => !nq.2.disabled)).map Prod.fst)
    (hfail : ∀ nq ∈ cq.clickHouseQueries.filter (fun nq => !nq.2.disabled),
        ((execClickHouseQuery q nq.2.query).2 = none ↔ nq.1 ≠ K)) :
    ∃ res m e, QueryRange q params = .ok (some res, some m, some e) ∧
      res.length + 1 =
        (cq.clickHouseQueries.filter (fun nq => !nq.2.disabled)).length ∧
      m.map Prod.fst = [K] ∧
      res.map Result.queryName =
        ((cq.clickHouseQueries.filter (fun nq => !nq.2.disabled)).map Prod.fst).filter
          (fun n => decide (n ≠ K)) := by
  have hndf : ((cq.clickHouseQueries.filter (fun nq => !nq.2.disabled)).map Prod.fst).Nodup :=
    hnd.sublist ((List.filter_sublist cq.clickHouseQueries).map Prod.fst)
  obtain ⟨hlen, hmapfst, hnames⟩ :=
    chDrain_one_fail q K (cq.clickHouseQueries.filter (fun nq => !nq.2.disabled))
      hndf hK hfail
  obtain ⟨e, hqr, hene, _⟩ := queryRange_ok_shape q params cq hcq
  have hds : dispatchStep q params cq = runClickHouseQueries q cq.clickHouseQueries := by
    unfold dispatchStep
    rw [hqt]
  set enabled := cq.clickHouseQueries.filter (fun nq => !nq.2.disabled) with henb
  have hmapne : (enabled.map (chUnit q)).filterMap
      (fun r => r.err.map (fun e => (r.name, e))) ≠ [] := by
    intro hnil
    rw [hnil] at hmapfst
    exact List.cons_ne_nil K [] hmapfst.symm
  have herrsome : (dispatchStep q params cq).2.2 =
      some { msg := "error in clickhouse queries", resourceLimit := false } := by
    rw [hds]
    show (if ((enabled.map (chUnit q)).filterMap
          (fun r => r.err.map (fun e => (r.name, e)))).isEmpty = true
        then (none : Option Err)
        else some ({ msg := "error in clickhouse queries", resourceLimit := false } : Err))
      = some ({ msg := "error in clickhouse queries", resourceLimit := false } : Err)
    rw [if_neg (fun h => hmapne (List.isEmpty_iff.mp h))]
  have hres : (dispatchStep q params cq).1 =
      some (((enabled.map (chUnit q)).filter (fun r => r.err.isNone)).map toSeriesResult) := by
    rw [hds]
    rfl
  have hmap : (dispatchStep q params cq).2.1 =
      some ((enabled.map (chUnit q)).filterMap
        (fun r => r.err.map (fun e => (r.name, e)))) := by
    rw [hds]
    rfl
  obtain ⟨e1, he1⟩ := Option.ne_none_iff_exists'.mp (hene (by rw [herrsome]; simp))
  rw [hres, hmap, he1] at hqr
  refine ⟨((enabled.map (chUnit q)).filter (fun r => r.err.isNone)).map toSeriesResult,
    (enabled.map (chUnit q)).filterMap (fun r => r.err.map (fun e => (r.name, e))),
    e1, hqr, ?_, hmapfst, ?_⟩
  · rw [List.length_map]
    exact hlen
  · rw [List.map_map]
    exact hnames

/-- C5 (witness): the fan-out isolation theorem at a two-sub-query
ClickHouseSQL request (Value panel) in which sub-query `B` fails. -/
theorem queryRange_clickhouse_fanout_isolation_witness :
    (valueParams.compositeQuery = some valueCq ∧
     valueCq.queryType = QueryType.clickHouseSQL) ∧
    ∃ res m e, QueryRange valueFailModel valueParams = .ok (some res, some m, some e) ∧
      res.length + 1 =
        (valueCq.clickHouseQueries.filter (fun nq => !nq.2.disabled)).length ∧
      m.map Prod.fst = ["B"] ∧
      res.map Result.queryName =
        ((valueCq.clickHouseQueries.filter (fun nq => !nq.2.disabled)).map Prod.fst).filter
          (fun n => decide (n ≠ "B")) :=
  ⟨⟨rfl, rfl⟩,
   queryRange_clickhouse_fanout_isolation valueFailModel valueParams valueCq "B"
     rfl rfl (by decide) (by decide) (by decide)⟩

/-- C6 (counterexample): a Builder request with a List panel — the
row-oriented path, not the Builder-series path — whose single sub-query `A`
fails with an internal error: the sub-runner reports the error for `A`, yet
`QueryRange` removes it from the per-name map, so the resource-limit filter
is not confined to the Builder-series path. -/
theorem queryRange_filter_on_list_path_counterexample :
    (runBuilderListQueries listFailModel listFailParams).2.1 =
      some [("A", wrapListErr "A" { msg := "internal failure", resourceLimit := false })] ∧
    QueryRange listFailModel listFailParams =
      .ok (none, some [],
        some (combineErrs
          [wrapListErr "A" { msg := "internal failure", resourceLimit := false }])) :=
  ⟨rfl, rfl⟩

/-- C6 (amended): after fan-out the per-query error map is filtered to
retain only resource-limit errors on the whole Builder branch (both the
series-oriented and the row-oriented List/Trace sub-paths), while any
dispatched error still forces a non-nil overall error; on the PromQL and
ClickHouseSQL paths no filter is applied and the sub-runner map is returned
unchanged. -/
theorem queryRange_error_filter_policy
    (q : QuerierModel) (params : Params) (cq : CompositeQuery)
    (hcq : params.compositeQuery = some cq) :
    (cq.queryType = QueryType.builder →
      ∃ r e, QueryRange q params = .ok (r,
          (builderDispatch q params cq).2.1.map
            (fun m => m.filter (fun ne => isResourceLimitError ne.2)), e) ∧
        ((builderDispatch q params cq).2.2 ≠ none → e ≠ none)) ∧
    (cq.queryType = QueryType.promQL →
      ∃ r e, QueryRange q params =
          .ok (r, (runPromQueries q params cq.promQueries).2.1, e) ∧
        ((runPromQueries q params cq.promQueries).2.2 ≠ none → e ≠ none)) ∧
    (cq.queryType = QueryType.clickHouseSQL →
      ∃ r e, QueryRange q params =
          .ok (r, (runClickHouseQueries q cq.clickHouseQueries).2.1, e) ∧
        ((runClickHouseQueries q cq.clickHouseQueries).2.2 ≠ none → e ≠ none)) := by
  obtain ⟨e, hqr, hene, _⟩ := queryRange_ok_shape q params cq hcq
  refine ⟨?_, ?_, ?_⟩
  · intro hqt
    have hds2 : (dispatchStep q params cq).2.1 =
        (builderDispatch q params cq).2.1.map
          (fun m => m.filter (fun ne => isResourceLimitError ne.2)) := by
      unfold dispatchStep
      rw [hqt]
    have hds3 : (dispatchStep q params cq).2.2 = (builderDispatch q params cq).2.2 := by
      unfold dispatchStep
      rw [hqt]
    rw [hds2] at hqr
    rw [hds3] at hene
    exact ⟨_, e, hqr, hene⟩
  · intro hqt
    have hds2 : (dispatchStep q params cq).2.1 =
        (runPromQueries q params cq.promQueries).2.1 := by
      unfold dispatchStep
      rw [hqt]
    have hds3 : (dispatchStep q params cq).2.2 =
        (runPromQueries q params cq.promQueries).2.2 := by
      unfold dispatchStep
      rw [hqt]
    rw [hds2] at hqr
    rw [hds3] at hene
    exact ⟨_, e, hqr, hene⟩
  · intro hqt
    have hds2 : (dispatchStep q params cq).2.1 =
        (runClickHouseQueries q cq.clickHouseQueries).2.1 := by
      unfold dispatchStep
      rw [hqt]
    have hds3 : (dispatchStep q params cq).2.2 =
        (runClickHouseQueries q cq.clickHouseQueries).2.2 := by
      unfold dispatchStep
      rw [hqt]
    rw [hds2] at hqr
    rw [hds3] at hene
    exact ⟨_, e, hqr, hene⟩

/-- C6 (witness): the filter-policy theorem applied to the Builder/List
request whose sub-query fails with an internal error. -/
theorem queryRange_error_filter_policy_witness :
    (listFailParams.compositeQuery = some listCq ∧
     listCq.queryType = QueryType.builder) ∧
    (∃ r e, QueryRange listFailModel listFailParams = .ok (r,
        (builderDispatch listFailModel listFailParams listCq).2.1.map
          (fun m => m.filter (fun ne => isResourceLimitError ne.2)), e) ∧
      ((builderDispatch listFailModel listFailParams listCq).2.2 ≠ none → e ≠ none)) :=
  ⟨⟨rfl, rfl⟩,
   (queryRange_error_filter_policy listFailModel listFailParams listCq rfl).1 rfl⟩

/-- C7 (counterexample): a Value-panel ClickHouseSQL request with two
enabled sub-queries of which one fails: only one result comes back, so the
Value-panel validation does not fire and the overall error is the plain
ClickHouse fan-out error, not a validation error — the claim that two
enabled sub-queries always produce the validation error is false. -/
theorem queryRange_value_two_enabled_counterexample :
    QueryRange valueFailModel valueParams =
      .ok (some [{ queryName := "A", series := [⟨[("l", "1")], [⟨1, 1⟩]⟩] }],
           some [("B", { msg := "boom", resourceLimit := false })],
           some { msg := "error in clickhouse queries", resourceLimit := false }) ∧
    enabledQueries valueCq = 2 ∧
    isValueValidationError
      { msg := "error in clickhouse queries", resourceLimit := false } = false :=
  ⟨rfl, rfl, rfl⟩

/-- C7 (amended): for a Value panel, when the dispatched results hold more
than one entry and more than one sub-query is enabled, `QueryRange`
replaces the overall error with the one-active-query validation error; when
exactly one result was dispatched and it holds more than one series, it
returns the one-series validation error.  (With at most one result — e.g.
when one of two enabled sub-queries fails — no validation error is raised;
see the counterexample.) -/
theorem queryRange_value_validation
    (q : QuerierModel) (params : Params) (cq : CompositeQuery)
    (hcq : params.compositeQuery = some cq)
    (hp : cq.panelType = PanelType.value) :
    (((dispatchStep q params cq).1.getD []).length > 1 → enabledQueries cq > 1 →
       QueryRange q params = .ok ((dispatchStep q params cq).1,
         (dispatchStep q params cq).2.1, some valueQueryValidationErr)) ∧
    (∀ r, (dispatchStep q params cq).1.getD [] = [r] → r.series.length > 1 →
       QueryRange q params = .ok ((dispatchStep q params cq).1,
         (dispatchStep q params cq).2.1,
         some (valueSeriesValidationErr r.series.length))) := by
  unfold QueryRange
  simp only [hcq]
  rw [if_pos hp]
  constructor
  · intro hlen hen
    unfold valueValidate
    rw [if_pos ⟨hlen, hen⟩]
  · intro r hr hser
    unfold valueValidate
    rw [hr, if_neg (by simp)]
    dsimp only
    rw [if_pos hser]

/-- C7 (witness): the Value-panel validation theorem at a two-sub-query
ClickHouseSQL request in which both sub-queries succeed: the overall error
is the one-active-query validation error. -/
theorem queryRange_value_validation_witness :
    (valueParams.compositeQuery = some valueCq ∧
     valueCq.panelType = PanelType.value ∧
     ((dispatchStep valueOkModel valueParams valueCq).1.getD []).length > 1 ∧
     enabledQueries valueCq > 1) ∧
    QueryRange valueOkModel valueParams =
      .ok ((dispatchStep valueOkModel valueParams valueCq).1,
        (dispatchStep valueOkModel valueParams valueCq).2.1,
        some valueQueryValidationErr) :=
  ⟨⟨rfl, rfl, by decide, by decide⟩,
   (queryRange_value_validation valueOkModel valueParams valueCq rfl rfl).1
     (by decide) (by decide)⟩

theorem listUnit_errNames (q : QuerierModel) :
    ∀ queries : List (String × String),
      ((queries.map (listUnit q)).filterMap
          (fun r => r.err.map (fun e => (r.name, e)))).map Prod.fst
        = (queries.filter (fun nq => !(exceptOk (q.listReader nq.2)))).map Prod.fst
  | [] => rfl
  | nq :: t => by
    simp only [List.map_cons, List.filter_cons, List.filterMap_cons]
    cases hr : q.listReader nq.2 with
    | error e =>
      rw [show listUnit q nq =
          { err := some (wrapListErr nq.1 e), name := nq.1, query := nq.2 } from by
        unfold listUnit
        rw [hr]]
      simp only [Option.map_some', show exceptOk (Except.error e) = false from rfl,
        Bool.not_false, eq_self_iff_true, if_true, List.map_cons]
      rw [listUnit_errNames q t]
    | ok rows =>
      rw [show listUnit q nq =
          { list := rows, name := nq.1, query := nq.2 } from by
        unfold listUnit
        rw [hr]]
      simp only [Option.map_none', show exceptOk (Except.ok rows) = true from rfl,
        Bool.not_true, Bool.false_eq_true, if_false]
      exact listUnit_errNames q t

theorem listUnit_errs_ne_nil (q : QuerierModel) (queries : List (String × String))
    (hfail : ∃ nq ∈ queries, exceptOk (q.listReader nq.2) = false) :
    (queries.map (listUnit q)).filterMap (fun r => r.err) ≠ [] := by
  obtain ⟨nq, hmem, hbad⟩ := hfail
  intro hnil
  rw [List.filterMap_eq_nil_iff] at hnil
  have hu := hnil (listUnit q nq) (List.mem_map_of_mem _ hmem)
  cases hr : q.listReader nq.2 with
  | error e =>
    rw [show listUnit q nq =
        { err := some (wrapListErr nq.1 e), name := nq.1, query := nq.2 } from by
      unfold listUnit
      rw [hr]] at hu
    exact Option.some_ne_none _ hu
  | ok rows =>
    rw [hr] at hbad
    exact absurd hbad (by simp [exceptOk])

/-- C8: on the row-oriented (List/Trace) Builder path, a translation failure
aborts the whole call before any fan-out with `(nil, nil, err)` returning
the translation error verbatim; and when translation succeeds but any
fetched unit fails, the call returns a nil result list, the per-name error
map keyed exactly by the failing sub-queries, and a combined multi-error —
never partial results. -/
theorem runBuilderListQueries_all_or_nothing (q : QuerierModel) (params : Params) :
    (∀ e, q.prepareQueries params = .error e →
        runBuilderListQueries q params = (none, none, some e)) ∧
    (∀ queries, q.prepareQueries params = .ok queries →
        (∃ nq ∈ queries, exceptOk (q.listReader nq.2) = false) →
        ∃ m ce, runBuilderListQueries q params = (none, some m, some ce) ∧
          m.map Prod.fst =
            (queries.filter (fun nq => !(exceptOk (q.listReader nq.2)))).map Prod.fst) := by
  constructor
  · intro e he
    unfold runBuilderListQueries
    rw [he]
  · intro queries hq hfail
    have hne := listUnit_errs_ne_nil q queries hfail
    unfold runBuilderListQueries
    rw [hq]
    dsimp only
    rw [if_neg (fun h => hne (List.isEmpty_iff.mp h))]
    exact ⟨_, _, rfl, listUnit_errNames q queries⟩

/-- C8 (witness): the no-partial-results theorem at a failing translation
and at a two-sub-query request whose sub-query `B` fails row fetching. -/
theorem runBuilderListQueries_all_or_nothing_witness :
    (prepFailModel.prepareQueries plainParams =
        .error { msg := "translation failed", resourceLimit := false } ∧
     runBuilderListQueries prepFailModel plainParams =
        (none, none, some { msg := "translation failed", resourceLimit := false })) ∧
    (partialFailModel.prepareQueries plainParams = .ok [("A", "qa"), ("B", "qb")] ∧
     ∃ m ce, runBuilderListQueries partialFailModel plainParams =
         (none, some m, some ce) ∧
       m.map Prod.fst = (([("A", "qa"), ("B", "qb")] : List (String × String)).filter
          (fun nq => !(exceptOk (partialFailModel.listReader nq.2)))).map Prod.fst) :=
  ⟨⟨rfl, (runBuilderListQueries_all_or_nothing prepFailModel plainParams).1 _ rfl⟩,
   ⟨rfl, (runBuilderListQueries_all_or_nothing partialFailModel plainParams).2 _ rfl
      ⟨("B", "qb"), by decide, by decide⟩⟩⟩

end QuerierV2
